import Mathlib

/-!
Verification of the shipit dashboard bug-sync bot
(src/shipit_dashboard/shipit_bot/sync.py).

The development shallowly embeds the data model and the operations of the
bot: Python dictionaries become association lists that keep insertion
order, the JSON-like values stored in them become the inductive `Value`,
exceptions become `Except String`, and every external collaborator
(remote store, Bugzilla, patch analyzer, user lookup) becomes a field of
an explicit environment record `Env`. The run of the bot is a pure
function from the environment to the trace of remote calls and log lines
it performs, together with an optional uncaught exception.
-/

/-- A JSON-like value, as stored in the Python dictionaries that the bot
manipulates (bug records, analysis results, user profiles). -/
inductive Value where
  | str (s : String)
  | num (n : Int)
  | boolV (b : Bool)
  | null
  | arr (xs : List Value)
  | obj (fields : List (String × Value))

mutual

def decValue : (a b : Value) → Decidable (a = b)
  | .str s, .str t =>
    match decEq s t with
    | isTrue h => isTrue (by rw [h])
    | isFalse h => isFalse (by intro hc; cases hc; exact h rfl)
  | .num n, .num m =>
    match decEq n m with
    | isTrue h => isTrue (by rw [h])
    | isFalse h => isFalse (by intro hc; cases hc; exact h rfl)
  | .boolV a, .boolV b =>
    match decEq a b with
    | isTrue h => isTrue (by rw [h])
    | isFalse h => isFalse (by intro hc; cases hc; exact h rfl)
  | .null, .null => isTrue rfl
  | .arr xs, .arr ys =>
    match decValueList xs ys with
    | isTrue h => isTrue (by rw [h])
    | isFalse h => isFalse (by intro hc; cases hc; exact h rfl)
  | .obj fs, .obj gs =>
    match decFieldList fs gs with
    | isTrue h => isTrue (by rw [h])
    | isFalse h => isFalse (by intro hc; cases hc; exact h rfl)
  | .str _, .num _ => isFalse (by intro h; cases h)
  | .str _, .boolV _ => isFalse (by intro h; cases h)
  | .str _, .null => isFalse (by intro h; cases h)
  | .str _, .arr _ => isFalse (by intro h; cases h)
  | .str _, .obj _ => isFalse (by intro h; cases h)
  | .num _, .str _ => isFalse (by intro h; cases h)
  | .num _, .boolV _ => isFalse (by intro h; cases h)
  | .num _, .null => isFalse (by intro h; cases h)
  | .num _, .arr _ => isFalse (by intro h; cases h)
  | .num _, .obj _ => isFalse (by intro h; cases h)
  | .boolV _, .str _ => isFalse (by intro h; cases h)
  | .boolV _, .num _ => isFalse (by intro h; cases h)
  | .boolV _, .null => isFalse (by intro h; cases h)
  | .boolV _, .arr _ => isFalse (by intro h; cases h)
  | .boolV _, .obj _ => isFalse (by intro h; cases h)
  | .null, .str _ => isFalse (by intro h; cases h)
  | .null, .num _ => isFalse (by intro h; cases h)
  | .null, .boolV _ => isFalse (by intro h; cases h)
  | .null, .arr _ => isFalse (by intro h; cases h)
  | .null, .obj _ => isFalse (by intro h; cases h)
  | .arr _, .str _ => isFalse (by intro h; cases h)
  | .arr _, .num _ => isFalse (by intro h; cases h)
  | .arr _, .boolV _ => isFalse (by intro h; cases h)
  | .arr _, .null => isFalse (by intro h; cases h)
  | .arr _, .obj _ => isFalse (by intro h; cases h)
  | .obj _, .str _ => isFalse (by intro h; cases h)
  | .obj _, .num _ => isFalse (by intro h; cases h)
  | .obj _, .boolV _ => isFalse (by intro h; cases h)
  | .obj _, .null => isFalse (by intro h; cases h)
  | .obj _, .arr _ => isFalse (by intro h; cases h)

def decValueList : (a b : List Value) → Decidable (a = b)
  | [], [] => isTrue rfl
  | [], _ :: _ => isFalse (by intro h; cases h)
  | _ :: _, [] => isFalse (by intro h; cases h)
  | x :: xs, y :: ys =>
    match decValue x y, decValueList xs ys with
    | isTrue h1, isTrue h2 => isTrue (by rw [h1, h2])
    | isFalse h1, _ => isFalse (by intro hc; cases hc; exact h1 rfl)
    | _, isFalse h2 => isFalse (by intro hc; cases hc; exact h2 rfl)

def decFieldList : (a b : List (String × Value)) → Decidable (a = b)
  | [], [] => isTrue rfl
  | [], _ :: _ => isFalse (by intro h; cases h)
  | _ :: _, [] => isFalse (by intro h; cases h)
  | (k, v) :: fs, (k2, v2) :: gs =>
    match decEq k k2, decValue v v2, decFieldList fs gs with
    | isTrue h0, isTrue h1, isTrue h2 => isTrue (by rw [h0, h1, h2])
    | isFalse h0, _, _ => isFalse (by intro hc; cases hc; exact h0 rfl)
    | _, isFalse h1, _ => isFalse (by intro hc; cases hc; exact h1 rfl)
    | _, _, isFalse h2 => isFalse (by intro hc; cases hc; exact h2 rfl)

end

instance : DecidableEq Value := decValue

/-- A Python dictionary with `String` keys and JSON-like values, in
insertion order: the shape of bug records, analysis results and user
profiles. -/
abbrev Record := List (String × Value)

/-- Lookup in an insertion-ordered dictionary (`d[k]` and `k in d`). -/
def dictGet {α β : Type} [DecidableEq α] (m : List (α × β)) (k : α) : Option β :=
  match m with
  | [] => none
  | (k2, v) :: rest => if k2 = k then some v else dictGet rest k

/-- Assignment `d[k] = v` on an insertion-ordered dictionary: replace the
value in place when the key is present, append the pair otherwise. -/
def dictSet {α β : Type} [DecidableEq α] (m : List (α × β)) (k : α) (v : β) :
    List (α × β) :=
  match m with
  | [] => [(k, v)]
  | (k2, v2) :: rest => if k2 = k then (k2, v) :: rest else (k2, v2) :: dictSet rest k v

/-- Python truthiness of a JSON-like value, as used by the bot in
`if analysis` style tests on the uplift comment. -/
def truthy : Value → Bool
  | .str s => !(s.isEmpty)
  | .num n => decide (n ≠ 0)
  | .boolV b => b
  | .null => false
  | .arr xs => !(xs.isEmpty)
  | .obj fs => !(fs.isEmpty)

/-- Injective encoding of a string into a natural number. -/
def encodeString (s : String) : Nat :=
  (s.toList.map Char.toNat).foldr (fun c acc => Nat.pair c acc + 1) 0

mutual

/-- Injective encoding of a JSON-like value into a natural number,
used to model the content hash (see `compute_dict_hash`). -/
def encodeValue : Value → Nat
  | .str s => Nat.pair 0 (encodeString s)
  | .num n => Nat.pair 1 (Nat.pair n.toNat (-n).toNat)
  | .boolV b => Nat.pair 2 (cond b 1 0)
  | .null => Nat.pair 3 0
  | .arr xs => Nat.pair 4 (encodeValueList xs)
  | .obj fs => Nat.pair 5 (encodeFieldList fs)

def encodeValueList : List Value → Nat
  | [] => 0
  | v :: vs => Nat.pair (encodeValue v) (encodeValueList vs) + 1

def encodeFieldList : List (String × Value) → Nat
  | [] => 0
  | (k, v) :: fs => Nat.pair (encodeString k) (Nat.pair (encodeValue v) (encodeFieldList fs)) + 1

end

/-- Modelled from the spec: the helper `compute_dict_hash` is imported from
`shipit_bot.helpers`, which is not among the provided sources. Per the spec
(sections 3 and 8) it is a content hash over the raw tracker record, equal on
identical records and different whenever any field of the record differs. We
model it as an injective encoding of the (possibly absent) record into a
natural number. -/
def compute_dict_hash (d : Option Record) : Nat :=
  match d with
  | none => 0
  | some r => encodeFieldList r + 1

/-- The body stored under the `payload` key of the record sent to the remote
store (`BugSync.update`, lines 61 to 66 of sync.py). -/
structure PayloadBody where
  url : String
  bug : Option Record
  analysis : Record
  users : List Record
deriving DecidableEq

/-- The internal payload built by `BugSync.update` (lines 58 to 68 of
sync.py) and posted to the remote store. -/
structure Payload where
  bugzilla_id : Nat
  analysis : List Nat
  payload : PayloadBody
  payload_hash : Nat
deriving DecidableEq

/-- Per-bug synchronization state (`class BugSync`, sync.py lines 20 to 30). -/
structure BugSync where
  bugzilla_id : Nat
  on_remote : List Nat
  on_bugzilla : List Nat
  bug_data : Option Record
  payload : Option Payload
deriving DecidableEq

/-- State of a fresh `BugSync(bugzilla_id)` (sync.py lines 25 to 30). -/
def BugSync.init (bugzilla_id : Nat) : BugSync :=
  ⟨bugzilla_id, [], [], none, none⟩

/-- One analysis returned by `GET /analysis`: the bot reads its `id`, `name`
and `parameters` keys (sync.py lines 272 to 283). -/
structure Analysis where
  id : Nat
  name : String
  parameters : String
deriving DecidableEq

/-- The external collaborators of the bot, abstracted at their interface
boundary: the remote store (`make_request` on `/analysis`,
`/analysis/id`, `/bugs`), the Bugzilla query client, the patch analyzer
`bug_analysis`, the comment renderer `parse_uplift_comment` and the user
lookup `BugzillaUser`. A call that can raise is an `Except`; the user
fetch and the renderer are modelled as total since their failures are not
distinguished by any claim. -/
structure Env where
  allAnalysis : Except String (List Analysis)
  remoteBugs : Nat → Except String (List Nat)
  trackerRaw : String → Except String (List (Nat × Record) × List (Nat × Value))
  bug_analysis : Nat → Except String Record
  parse_uplift_comment : Value → Nat → Value
  fetchUser : Value → Record
  postResult : Nat → Except String Unit
  deleteResult : Nat → Except String Unit

/-- Key extraction of `_extract_user` (sync.py lines 79 to 94): a `None`
reference is skipped, a dict carries the key under `id` or else `email`
(otherwise an error), a bare string is its own key, and any other shape is
an unsupported format error. -/
def refKey : Value → Except String (Option Value)
  | .null => .ok none
  | .obj fields =>
    match dictGet fields "id" with
    | some v => .ok (some v)
    | none =>
      match dictGet fields "email" with
      | some v => .ok (some v)
      | none => .error "Invalid user data : no id or email"
  | .str s => .ok (some (.str s))
  | .num _ => .error "Invalid user data : unsupported format"
  | .boolV _ => .error "Invalid user data : unsupported format"
  | .arr _ => .error "Invalid user data : unsupported format"

/-- Role accumulation of `_extract_user` (sync.py lines 96 to 98): create
the entry on first sight of the key, then append the role. -/
def addRole (roles : List (Value × List String)) (key : Value) (role : String) :
    List (Value × List String) :=
  match dictGet roles key with
  | some rs => dictSet roles key (rs ++ [role])
  | none => roles ++ [(key, [role])]

/-- The full `_extract_user(user_data, role)` (sync.py lines 79 to 98). -/
def extractUser (roles : List (Value × List String)) (user_data : Value)
    (role : String) : Except String (List (Value × List String)) :=
  match refKey user_data with
  | .error e => .error e
  | .ok none => .ok roles
  | .ok (some key) => .ok (addRole roles key role)

/-- The reviewer loop of `load_users` (sync.py lines 103 to 104):
`_extract_user(r, 'reviewer')` for each reviewer reference in order. -/
def extractReviewers (roles : List (Value × List String)) :
    List Value → Except String (List (Value × List String))
  | [] => .ok roles
  | r :: rest =>
    match extractUser roles r "reviewer" with
    | .error e => .error e
    | .ok r2 => extractReviewers r2 rest

/-- Role to user-key extraction of `load_users` (sync.py lines 100 to 105):
creator, assignee, each reviewer, then the uplift author. Dictionary
accesses that would raise in Python are errors here. -/
def buildRoles (analysis : Record) : Except String (List (Value × List String)) :=
  match dictGet analysis "users" with
  | none => .error "KeyError users"
  | some (Value.obj ufs) =>
    match extractUser [] ((dictGet ufs "creator").getD .null) "creator" with
    | .error e => .error e
    | .ok r1 =>
      match extractUser r1 ((dictGet ufs "assignee").getD .null) "assignee" with
      | .error e => .error e
      | .ok r2 =>
        match dictGet ufs "reviewers" with
        | some (Value.arr revs) =>
          (match extractReviewers r2 revs with
           | .error e => .error e
           | .ok r3 =>
             match dictGet analysis "uplift_author" with
             | some ua => extractUser r3 ua "uplift_author"
             | none => .error "KeyError uplift_author")
        | some _ => .error "TypeError reviewers"
        | none => .error "KeyError reviewers"
  | some _ => .error "AttributeError get"

/-- The `_handler` callback of `load_users` (sync.py lines 107 to 110):
attach to a fetched user profile the roles accumulated under its id, or
else under its email, defaulting to no roles. Both profile accesses
would raise `KeyError` in Python when absent. -/
def handlerRoles (roles : List (Value × List String)) (user : Record) :
    Except String (List String) :=
  match dictGet user "id", dictGet user "email" with
  | some uid, some em => .ok ((dictGet roles uid).getD ((dictGet roles em).getD []))
  | _, _ => .error "KeyError user profile"

/-- The user resolution of `load_users` (sync.py lines 112 to 116): the
external Bugzilla lookup fetches one profile per unique user key, and
`_handler` attaches the accumulated roles to each profile in order. -/
def resolveUsers (env : Env) (roles : List (Value × List String)) :
    List (Value × List String) → Except String (List Record)
  | [] => .ok []
  | (key, _) :: rest =>
    match handlerRoles roles (env.fetchUser key) with
    | .error e => .error e
    | .ok rs =>
      match resolveUsers env roles rest with
      | .error e => .error e
      | .ok out =>
        .ok (dictSet (env.fetchUser key) "roles"
          (Value.arr (rs.map Value.str)) :: out)

/-- The whole `BugSync.load_users` (sync.py lines 73 to 117): build the
role map, then resolve every unique user key through the external
Bugzilla user lookup, attaching the accumulated roles to each profile. -/
def load_users (env : Env) (analysis : Record) : Except String (List Record) :=
  match buildRoles analysis with
  | .error e => .error e
  | .ok roles => resolveUsers env roles roles

/-- The uplift-comment rendering step of `BugSync.update` (sync.py lines
52 to 55): when the comment is truthy, store the rendered html next to
its text. -/
def renderUplift (env : Env) (bid : Nat) (analysis : Record) : Except String Record :=
  match dictGet analysis "uplift_comment" with
  | none => .error "KeyError uplift_comment"
  | some uc =>
    if truthy uc then
      match uc with
      | .obj fs =>
        match dictGet fs "text" with
        | some t =>
          .ok (dictSet analysis "uplift_comment"
            (.obj (dictSet fs "html" (env.parse_uplift_comment t bid))))
        | none => .error "KeyError text"
      | _ => .error "TypeError uplift_comment"
    else .ok analysis

/-- The whole `BugSync.update` (sync.py lines 32 to 71): skip when a
payload is already present, hash the raw record, run the external patch
analysis (a failure is caught and reported as `false`), render the uplift
comment, load the users (failures of these two steps are uncaught
exceptions) and assemble the payload. -/
def BugSync.update (env : Env) (bugzilla_url : String) (s : BugSync) :
    Except String (BugSync × Bool) :=
  if s.payload.isSome then .ok (s, true)
  else
    match env.bug_analysis s.bugzilla_id with
    | .error _ => .ok (s, false)
    | .ok analysis0 =>
      match renderUplift env s.bugzilla_id analysis0 with
      | .error e => .error e
      | .ok analysis =>
        match load_users env analysis with
        | .error e => .error e
        | .ok users =>
          .ok ({ s with payload := some {
              bugzilla_id := s.bugzilla_id,
              analysis := s.on_bugzilla,
              payload := {
                url := bugzilla_url ++ "/" ++ toString s.bugzilla_id,
                bug := s.bug_data,
                analysis := analysis,
                users := users },
              payload_hash := compute_dict_hash s.bug_data } }, true)

/-- The body of the attachment-merge loop of `Bot.list_bugs` (sync.py
lines 165 to 169): an attachment entry whose bug id is not a key of the
bug map is skipped, the others are stored under the `attachments` key of
their bug record. -/
def mergeStep (bs : List (Nat × Record)) (p : Nat × Value) : List (Nat × Record) :=
  match dictGet bs p.1 with
  | none => bs
  | some r => dictSet bs p.1 (dictSet r "attachments" p.2)

/-- The attachment-merge loop of `Bot.list_bugs`, folding `mergeStep` over
the attachment dictionary. -/
def list_bugs_merge (bugs : List (Nat × Record)) (attachments : List (Nat × Value)) :
    List (Nat × Record) :=
  attachments.foldl mergeStep bugs

/-- The whole `Bot.list_bugs` (sync.py lines 145 to 171): the Bugzilla
client fills the bug and attachment dictionaries (external collaborator),
then the attachments are merged onto the bugs. -/
def list_bugs (env : Env) (query : String) : Except String (List (Nat × Record)) :=
  match env.trackerRaw query with
  | .error e => .error e
  | .ok (bugs, attachments) => .ok (list_bugs_merge bugs attachments)

/-- The `BotRemote.sync` dictionary: bug id to per-bug state, in
insertion order. -/
abbrev SyncMap := List (Nat × BugSync)

/-- Effect of `get_bug_sync` followed by `sync.on_remote.append` (sync.py
lines 256 to 262 and 277 to 279) for one remote bug id. -/
def markRemote (m : SyncMap) (bid aid : Nat) : SyncMap :=
  match dictGet m bid with
  | some s => dictSet m bid { s with on_remote := s.on_remote ++ [aid] }
  | none => m ++ [(bid, { BugSync.init bid with on_remote := [aid] })]

/-- Effect of the tracker-result loop body (sync.py lines 284 to 288) for
one raw bug: create the state when absent, set `bug_data` only when still
unset, and append the analysis id to `on_bugzilla`. -/
def markTracker (m : SyncMap) (bid : Nat) (data : Record) (aid : Nat) : SyncMap :=
  match dictGet m bid with
  | some s =>
    dictSet m bid { s with
      bug_data := match s.bug_data with | none => some data | some d => some d,
      on_bugzilla := s.on_bugzilla ++ [aid] }
  | none => m ++ [(bid, { BugSync.init bid with bug_data := some data, on_bugzilla := [aid] })]

/-- The body of the collection loop of `BotRemote.run` (sync.py lines 272
to 288) for one analysis: list the remote bugs, mark them, then query the
tracker and mark its results. A failed call leaves the loop with an
uncaught exception. -/
def processAnalysis (env : Env) (m : SyncMap) (a : Analysis) : SyncMap × Option String :=
  match env.remoteBugs a.id with
  | .error e => (m, some e)
  | .ok remoteIds =>
    let m2 := remoteIds.foldl (fun mm b => markRemote mm b a.id) m
    match list_bugs env a.parameters with
    | .error e => (m2, some e)
    | .ok raw_bugs =>
      (raw_bugs.foldl (fun mm p => markTracker mm p.1 p.2 a.id) m2, none)

/-- The collection loop of `BotRemote.run` (sync.py lines 272 to 288) over
the list of analyses: an uncaught exception stops the loop. -/
def collect (env : Env) : List Analysis → SyncMap → SyncMap × Option String
  | [], m => (m, none)
  | a :: rest, m =>
    match processAnalysis env m a with
    | (m2, some e) => (m2, some e)
    | (m2, none) => collect env rest m2

/-- One observable step of the reconciliation loop: a remote call (the
POST upsert or the DELETE), or a log line at its level. -/
inductive BotAction where
  | post (bid : Nat) (p : Payload)
  | deleteBug (bid : Nat)
  | logInfo (msg : String)
  | logError (msg : String)
  | logWarning (msg : String)
deriving DecidableEq

/-- Rendering of `', '.join(map(str, ids))` used in the log lines of the
reconciliation loop. -/
def joinIds (ids : List Nat) : String :=
  String.intercalate ", " (ids.map toString)

/-- The body of the reconciliation loop of `BotRemote.run` (sync.py lines
290 to 314) for one bug: upsert when `on_bugzilla` is non-empty (POST
failures are caught and logged as errors), else delete when `on_remote`
is non-empty (DELETE failures are caught and logged as warnings), else
nothing. An uncaught exception out of `update` aborts with no action. -/
def reconcileBug (env : Env) (bugzilla_url : String) (bid : Nat) (s : BugSync) :
    List BotAction × Option String :=
  if 0 < s.on_bugzilla.length then
    match BugSync.update env bugzilla_url s with
    | .error e => ([], some e)
    | .ok (s2, ok) =>
      if ok then
        match s2.payload with
        | some p =>
          match env.postResult bid with
          | .ok _ =>
            ([.post bid p,
              .logInfo ("Added bug #" ++ toString bid ++ " on analysis " ++
                joinIds s.on_bugzilla)], none)
          | .error e =>
            ([.post bid p,
              .logError ("Failed to add bug #" ++ toString bid ++ " : " ++ e)], none)
        | none => ([], none)
      else ([], none)
  else if 0 < s.on_remote.length then
    match env.deleteResult bid with
    | .ok _ =>
      ([.deleteBug bid,
        .logInfo ("Deleted bug #" ++ toString bid ++ " from analysis " ++
          joinIds s.on_remote)], none)
    | .error e =>
      ([.deleteBug bid,
        .logWarning ("Failed to delete bug #" ++ toString bid ++ " : " ++ e)], none)
  else ([], none)

/-- The reconciliation loop of `BotRemote.run` (sync.py lines 290 to 314)
over the sync map, in insertion order: an uncaught exception stops the
loop, keeping the actions already performed. -/
def reconcile (env : Env) (bugzilla_url : String) : SyncMap → List BotAction × Option String
  | [] => ([], none)
  | (bid, s) :: rest =>
    match reconcileBug env bugzilla_url bid s with
    | (acts, some e) => (acts, some e)
    | (acts, none) =>
      let r := reconcile env bugzilla_url rest
      (acts ++ r.1, r.2)

/-- The whole `BotRemote.run` (sync.py lines 264 to 314): list the
analyses, collect the per-bug states, then reconcile. A failure during
collection aborts the run before any remote mutation. -/
def runBot (env : Env) (bugzilla_url : String) : List BotAction × Option String :=
  match env.allAnalysis with
  | .error e => ([], some e)
  | .ok analyses =>
    match collect env analyses [] with
    | (_, some e) => ([], some e)
    | (m, none) => reconcile env bugzilla_url m

/-- Occurrences of a bug id in one remote listing, each contributing one
copy of the analysis id to `on_remote`. -/
def occsR (ids : List Nat) (bid aid : Nat) : List Nat :=
  (ids.filter (fun b => decide (b = bid))).map (fun _ => aid)

/-- Occurrences of a bug id among one tracker result, each contributing
one copy of the analysis id to `on_bugzilla`. -/
def occsT (entries : List (Nat × Record)) (bid aid : Nat) : List Nat :=
  (entries.filter (fun p => decide (p.1 = bid))).map (fun _ => aid)

/-- The record of the first tracker entry for a bug id, if any. -/
def firstT (entries : List (Nat × Record)) (bid : Nat) : Option Record :=
  ((entries.filter (fun p => decide (p.1 = bid))).map Prod.snd).head?

/-- Remote listing of an analysis when the call succeeds, empty otherwise. -/
def remoteOk (env : Env) (a : Analysis) : List Nat :=
  match env.remoteBugs a.id with | .ok l => l | .error _ => []

/-- Merged tracker result of an analysis when the call succeeds, empty
otherwise. -/
def trackOk (env : Env) (a : Analysis) : List (Nat × Record) :=
  match list_bugs env a.parameters with | .ok l => l | .error _ => []

/-- Analysis ids appended to `on_remote` for one bug over a run, in order. -/
def expOnRemote (env : Env) (l : List Analysis) (bid : Nat) : List Nat :=
  l.flatMap (fun a => occsR (remoteOk env a) bid a.id)

/-- Analysis ids appended to `on_bugzilla` for one bug over a run, in order. -/
def expOnBugzilla (env : Env) (l : List Analysis) (bid : Nat) : List Nat :=
  l.flatMap (fun a => occsT (trackOk env a) bid a.id)

/-- The first tracker record observed for one bug over a run. -/
def expBugData (env : Env) (l : List Analysis) (bid : Nat) : Option Record :=
  firstT (l.flatMap (fun a => trackOk env a)) bid

/-- Remote calls (upsert or delete) addressed to a given bug id. -/
def callFor (bid : Nat) : BotAction → Bool
  | .post b _ => decide (b = bid)
  | .deleteBug b => decide (b = bid)
  | .logInfo _ => false
  | .logError _ => false
  | .logWarning _ => false

/-- The sub-trace of remote calls addressed to a given bug id. -/
def callsFor (acts : List BotAction) (bid : Nat) : List BotAction :=
  acts.filter (callFor bid)

/-- Concrete bug map for the C9 witness: two bugs. -/
def cw9_bugs : List (Nat × Record) :=
  [(1, [("a", Value.num 1)]), (2, [("b", Value.num 2)])]

/-- Concrete attachment map for the C9 witness: one entry matching bug 1
and one entry (bug 3) with no matching bug record. -/
def cw9_atts : List (Nat × Value) :=
  [(1, Value.arr [Value.null]), (3, Value.arr [])]

/-- Minimal analyzer result used by concrete witnesses: no creator, no
assignee, no reviewers, no uplift comment, no uplift author. -/
def cwAna : Record :=
  [("users", Value.obj [("reviewers", Value.arr [])]),
   ("uplift_comment", Value.null),
   ("uplift_author", Value.null)]

/-- Concrete environment for the C8 witness. -/
def cw8_env : Env :=
  { allAnalysis := .ok [],
    remoteBugs := fun _ => .ok [],
    trackerRaw := fun _ => .ok ([], []),
    bug_analysis := fun _ => .ok cwAna,
    parse_uplift_comment := fun _ _ => Value.null,
    fetchUser := fun _ => [],
    postResult := fun _ => .ok (),
    deleteResult := fun _ => .ok () }

/-- First raw record of the C8 witness. -/
def cw8_rec1 : Record := [("a", Value.num 1)]

/-- Second raw record of the C8 witness: one field differs. -/
def cw8_rec2 : Record := [("a", Value.num 2)]

/-- Sync state of bug 1 for the C8 witness. -/
def cw8_s1 : BugSync := ⟨1, [], [1], some cw8_rec1, none⟩

/-- Sync state of bug 2 for the C8 witness. -/
def cw8_s2 : BugSync := ⟨2, [], [1], some cw8_rec2, none⟩

/-- Payload produced for bug 1 in the C8 witness. -/
def cw8_p1 : Payload :=
  ⟨1, [1], ⟨"u" ++ "/" ++ toString (1 : Nat), some cw8_rec1, cwAna, []⟩,
   compute_dict_hash (some cw8_rec1)⟩

/-- Payload produced for bug 2 in the C8 witness. -/
def cw8_p2 : Payload :=
  ⟨2, [1], ⟨"u" ++ "/" ++ toString (2 : Nat), some cw8_rec2, cwAna, []⟩,
   compute_dict_hash (some cw8_rec2)⟩

/-- User-fields dictionary for the C6 witness: the assignee and the sole
reviewer are the same user, referenced by id 7 both times. -/
def cw6_ufs : Record :=
  [("assignee", Value.obj [("id", Value.num 7)]),
   ("reviewers", Value.arr [Value.obj [("id", Value.num 7)]])]

/-- Analyzer result for the C6 witness. -/
def cw6_ana : Record :=
  [("users", Value.obj cw6_ufs), ("uplift_author", Value.null)]

/-- Resolved profile for the C6 witness. -/
def cw6_u : Record := [("id", Value.num 7), ("email", Value.str "e")]

/-- Concrete environment for the C6 witness. -/
def cw6_env : Env :=
  { allAnalysis := .ok [],
    remoteBugs := fun _ => .ok [],
    trackerRaw := fun _ => .ok ([], []),
    bug_analysis := fun _ => .ok cw6_ana,
    parse_uplift_comment := fun _ _ => Value.null,
    fetchUser := fun _ => cw6_u,
    postResult := fun _ => .ok (),
    deleteResult := fun _ => .ok () }

/-- Record of bug 1 as returned by the first analysis of the C5 witness. -/
def cw5_r1 : Record := [("a", Value.num 1)]

/-- Record of bug 1 as returned by the second analysis of the C5 witness. -/
def cw5_r2 : Record := [("a", Value.num 5)]

/-- The two analyses of the C5 witness: both tracker queries match bug 1,
with different records. -/
def cw5_analyses : List Analysis := [⟨1, "A", "qa"⟩, ⟨2, "B", "qb"⟩]

/-- Concrete environment for the C5 witness. -/
def cw5_env : Env :=
  { allAnalysis := .ok cw5_analyses,
    remoteBugs := fun _ => .ok [],
    trackerRaw := fun q =>
      if q = "qa" then .ok ([(1, cw5_r1)], [])
      else .ok ([(1, cw5_r2)], []),
    bug_analysis := fun _ => .ok cwAna,
    parse_uplift_comment := fun _ _ => Value.null,
    fetchUser := fun _ => [],
    postResult := fun _ => .ok (),
    deleteResult := fun _ => .ok () }

/-- The sync state of bug 1 built by the C5 witness collection: the first
record won, both analysis ids were appended. -/
def cw5_s : BugSync := ⟨1, [], [1, 2], some cw5_r1, none⟩

/-- Record of bug 3 in the C1 witness. -/
def cw1_r3 : Record := [("c", Value.num 3)]

/-- The two analyses of the C1 witness. -/
def cw1_analyses : List Analysis := [⟨1, "A", "qa"⟩, ⟨2, "B", "qb"⟩]

/-- Concrete environment for the C1 witness: bug 1 is on the remote store
under analysis 1 and matched by both tracker queries, bug 2 is only on
the remote store, bug 3 is only matched by the second query. -/
def cw1_env : Env :=
  { allAnalysis := .ok cw1_analyses,
    remoteBugs := fun aid => if aid = 1 then .ok [1, 2] else .ok [],
    trackerRaw := fun q =>
      if q = "qa" then .ok ([(1, cw5_r1)], [])
      else .ok ([(1, cw5_r2), (3, cw1_r3)], []),
    bug_analysis := fun _ => .ok cwAna,
    parse_uplift_comment := fun _ _ => Value.null,
    fetchUser := fun _ => [],
    postResult := fun _ => .ok (),
    deleteResult := fun _ => .ok () }

/-- Sync state of bug 1 built by the C1 witness collection. -/
def cw1_s1 : BugSync := ⟨1, [1], [1, 2], some cw5_r1, none⟩

/-- The sync map built by the C1 witness collection. -/
def cw1_m : SyncMap :=
  [(1, cw1_s1), (2, ⟨2, [1], [], none, none⟩), (3, ⟨3, [], [2], some cw1_r3, none⟩)]

/-- Sync state for the C7 witness: bug 1 matches analysis 1 on the
tracker and is listed under analysis 2 on the remote store. -/
def cw7_s : BugSync := ⟨1, [2], [1], some cw5_r1, none⟩

/-- Concrete environment for the C7 witness: the remote store rejects the
POST for bug 1. -/
def cw7_env : Env :=
  { allAnalysis := .ok [],
    remoteBugs := fun _ => .ok [],
    trackerRaw := fun _ => .ok ([], []),
    bug_analysis := fun _ => .ok cwAna,
    parse_uplift_comment := fun _ _ => Value.null,
    fetchUser := fun _ => [],
    postResult := fun _ => .error "boom",
    deleteResult := fun _ => .ok () }

/-- Payload produced for bug 1 in the C7 witness. -/
def cw7_p : Payload :=
  ⟨1, [1], ⟨"u" ++ "/" ++ toString (1 : Nat), some cw5_r1, cwAna, []⟩,
   compute_dict_hash (some cw5_r1)⟩

/-- Analyzer result with a malformed user reference: the assignee is a
number, neither a string nor a dict with an id or email key. -/
def cw3_bad : Record :=
  [("users", Value.obj [("assignee", Value.num 5), ("reviewers", Value.arr [])]),
   ("uplift_comment", Value.null),
   ("uplift_author", Value.null)]

/-- Record of bug 2 in the C3 counterexample. -/
def cw3_r2 : Record := [("b", Value.num 2)]

/-- Concrete environment for C3: one analysis matching bugs 1 and 2; the
analyzer result of bug 1 carries the malformed assignee reference. -/
def cw3_env : Env :=
  { allAnalysis := .ok [⟨1, "A", "q"⟩],
    remoteBugs := fun _ => .ok [],
    trackerRaw := fun _ => .ok ([(1, cw5_r1), (2, cw3_r2)], []),
    bug_analysis := fun bid => if bid = 1 then .ok cw3_bad else .ok cwAna,
    parse_uplift_comment := fun _ _ => Value.null,
    fetchUser := fun _ => [],
    postResult := fun _ => .ok (),
    deleteResult := fun _ => .ok () }

/-- Sync state of bug 1 in the C3 witness. -/
def cw3_s1 : BugSync := ⟨1, [], [1], some cw5_r1, none⟩

/-- Sync state of bug 2 in the C3 witness. -/
def cw3_s2 : BugSync := ⟨2, [], [1], some cw3_r2, none⟩

/-- Record of bug 7 in the C2 counterexample. -/
def cw2_r7 : Record := [("d", Value.num 7)]

/-- Concrete environment for C2: the remote listing of the first analysis
fails; the second analysis would match bug 7 on the tracker. -/
def cw2_env : Env :=
  { allAnalysis := .ok [⟨1, "A", "qa"⟩, ⟨2, "B", "qb"⟩],
    remoteBugs := fun aid => if aid = 1 then .error "remote down" else .ok [],
    trackerRaw := fun q =>
      if q = "qa" then .ok ([], []) else .ok ([(7, cw2_r7)], []),
    bug_analysis := fun _ => .ok cwAna,
    parse_uplift_comment := fun _ _ => Value.null,
    fetchUser := fun _ => [],
    postResult := fun _ => .ok (),
    deleteResult := fun _ => .ok () }

theorem encodeNatList_inj (xs ys : List Nat)
    (h : xs.foldr (fun c acc => Nat.pair c acc + 1) 0 =
         ys.foldr (fun c acc => Nat.pair c acc + 1) 0) : xs = ys := by
  induction xs generalizing ys with
  | nil =>
    cases ys with
    | nil => rfl
    | cons y ys => simp at h
  | cons x xs ih =>
    cases ys with
    | nil => simp at h
    | cons y ys =>
      simp only [List.foldr] at h
      have h2 := Nat.succ_injective h
      have h3 := Nat.pair_eq_pair.mp h2
      rw [h3.1, ih ys h3.2]

theorem encodeString_inj (s t : String) (h : encodeString s = encodeString t) :
    s = t := by
  unfold encodeString at h
  have h2 := encodeNatList_inj _ _ h
  have h3 : s.toList = t.toList := by
    apply List.map_injective_iff.mpr _ h2
    intro a b hab
    exact Char.ext (UInt32.ext hab)
  calc s = String.mk s.toList := rfl
    _ = String.mk t.toList := by rw [h3]
    _ = t := rfl

mutual

theorem encodeValue_inj : (a b : Value) → encodeValue a = encodeValue b → a = b
  | .str s, .str t, h => by
    simp only [encodeValue, Nat.pair_eq_pair, true_and] at h
    rw [encodeString_inj s t h]
  | .num n, .num m, h => by
    simp only [encodeValue, Nat.pair_eq_pair, true_and] at h
    have h2 : n = m := by omega
    rw [h2]
  | .boolV a, .boolV b, h => by
    simp only [encodeValue, Nat.pair_eq_pair, true_and] at h
    cases a <;> cases b <;> simp_all
  | .null, .null, _ => rfl
  | .arr xs, .arr ys, h => by
    simp only [encodeValue, Nat.pair_eq_pair, true_and] at h
    rw [encodeValueList_inj xs ys h]
  | .obj fs, .obj gs, h => by
    simp only [encodeValue, Nat.pair_eq_pair, true_and] at h
    rw [encodeFieldList_inj fs gs h]
  | .str _, .num _, h => by simp [encodeValue, Nat.pair_eq_pair] at h
  | .str _, .boolV _, h => by simp [encodeValue, Nat.pair_eq_pair] at h
  | .str _, .null, h => by simp [encodeValue, Nat.pair_eq_pair] at h
  | .str _, .arr _, h => by simp [encodeValue, Nat.pair_eq_pair] at h
  | .str _, .obj _, h => by simp [encodeValue, Nat.pair_eq_pair] at h
  | .num _, .str _, h => by simp [encodeValue, Nat.pair_eq_pair] at h
  | .num _, .boolV _, h => by simp [encodeValue, Nat.pair_eq_pair] at h
  | .num _, .null, h => by simp [encodeValue, Nat.pair_eq_pair] at h
  | .num _, .arr _, h => by simp [encodeValue, Nat.pair_eq_pair] at h
  | .num _, .obj _, h => by simp [encodeValue, Nat.pair_eq_pair] at h
  | .boolV _, .str _, h => by simp [encodeValue, Nat.pair_eq_pair] at h
  | .boolV _, .num _, h => by simp [encodeValue, Nat.pair_eq_pair] at h
  | .boolV _, .null, h => by simp [encodeValue, Nat.pair_eq_pair] at h
  | .boolV _, .arr _, h => by simp [encodeValue, Nat.pair_eq_pair] at h
  | .boolV _, .obj _, h => by simp [encodeValue, Nat.pair_eq_pair] at h
  | .null, .str _, h => by simp [encodeValue, Nat.pair_eq_pair] at h
  | .null, .num _, h => by simp [encodeValue, Nat.pair_eq_pair] at h
  | .null, .boolV _, h => by simp [encodeValue, Nat.pair_eq_pair] at h
  | .null, .arr _, h => by simp [encodeValue, Nat.pair_eq_pair] at h
  | .null, .obj _, h => by simp [encodeValue, Nat.pair_eq_pair] at h
  | .arr _, .str _, h => by simp [encodeValue, Nat.pair_eq_pair] at h
  | .arr _, .num _, h => by simp [encodeValue, Nat.pair_eq_pair] at h
  | .arr _, .boolV _, h => by simp [encodeValue, Nat.pair_eq_pair] at h
  | .arr _, .null, h => by simp [encodeValue, Nat.pair_eq_pair] at h
  | .arr _, .obj _, h => by simp [encodeValue, Nat.pair_eq_pair] at h
  | .obj _, .str _, h => by simp [encodeValue, Nat.pair_eq_pair] at h
  | .obj _, .num _, h => by simp [encodeValue, Nat.pair_eq_pair] at h
  | .obj _, .boolV _, h => by simp [encodeValue, Nat.pair_eq_pair] at h
  | .obj _, .null, h => by simp [encodeValue, Nat.pair_eq_pair] at h
  | .obj _, .arr _, h => by simp [encodeValue, Nat.pair_eq_pair] at h

theorem encodeValueList_inj : (a b : List Value) →
    encodeValueList a = encodeValueList b → a = b
  | [], [], _ => rfl
  | [], _ :: _, h => by simp [encodeValueList] at h
  | _ :: _, [], h => by simp [encodeValueList] at h
  | v :: vs, w :: ws, h => by
    simp only [encodeValueList] at h
    have h2 := Nat.succ_injective h
    have h3 := Nat.pair_eq_pair.mp h2
    rw [encodeValue_inj v w h3.1, encodeValueList_inj vs ws h3.2]

theorem encodeFieldList_inj : (a b : List (String × Value)) →
    encodeFieldList a = encodeFieldList b → a = b
  | [], [], _ => rfl
  | [], _ :: _, h => by simp [encodeFieldList] at h
  | _ :: _, [], h => by simp [encodeFieldList] at h
  | (k, v) :: fs, (k2, v2) :: gs, h => by
    simp only [encodeFieldList] at h
    have h2 := Nat.succ_injective h
    have h3 := Nat.pair_eq_pair.mp h2
    have h4 := Nat.pair_eq_pair.mp h3.2
    rw [encodeString_inj k k2 h3.1, encodeValue_inj v v2 h4.1,
        encodeFieldList_inj fs gs h4.2]

end

theorem compute_dict_hash_inj (d1 d2 : Option Record)
    (h : compute_dict_hash d1 = compute_dict_hash d2) : d1 = d2 := by
  match d1, d2 with
  | none, none => rfl
  | none, some r => simp [compute_dict_hash] at h
  | some r, none => simp [compute_dict_hash] at h
  | some r1, some r2 =>
    simp only [compute_dict_hash, Nat.add_right_cancel_iff] at h
    rw [encodeFieldList_inj r1 r2 h]

theorem dictGet_dictSet_self {α β : Type} [DecidableEq α] (m : List (α × β))
    (k : α) (v : β) : dictGet (dictSet m k v) k = some v := by
  induction m with
  | nil => simp [dictGet, dictSet]
  | cons p rest ih =>
    by_cases h : p.1 = k
    · simp [dictGet, dictSet, h]
    · simpa [dictGet, dictSet, h] using ih

theorem dictGet_dictSet_ne {α β : Type} [DecidableEq α] (m : List (α × β))
    (k k2 : α) (v : β) (hne : k2 ≠ k) :
    dictGet (dictSet m k v) k2 = dictGet m k2 := by
  have hkk : ¬ k = k2 := fun hc => hne hc.symm
  induction m with
  | nil => simp [dictGet, dictSet, hkk]
  | cons p rest ih =>
    by_cases h : p.1 = k
    · simp [dictGet, dictSet, h, hkk]
    · simp [dictGet, dictSet, h, ih]

theorem dictSet_keys_of_mem {α β : Type} [DecidableEq α] (m : List (α × β))
    (k : α) (v s : β) (h : dictGet m k = some s) :
    (dictSet m k v).map Prod.fst = m.map Prod.fst := by
  induction m with
  | nil => simp [dictGet] at h
  | cons p rest ih =>
    by_cases h2 : p.1 = k
    · simp [dictSet, h2]
    · simp only [dictGet, h2, if_false] at h
      simp [dictSet, h2, ih h]

theorem dictSet_keys_of_none {α β : Type} [DecidableEq α] (m : List (α × β))
    (k : α) (v : β) (h : dictGet m k = none) :
    (dictSet m k v).map Prod.fst = m.map Prod.fst ++ [k] := by
  induction m with
  | nil => simp [dictSet]
  | cons p rest ih =>
    by_cases h2 : p.1 = k
    · simp [dictGet, h2] at h
    · simp only [dictGet, h2, if_false] at h
      simp [dictSet, h2, ih h]

theorem dictGet_none_iff {α β : Type} [DecidableEq α] (m : List (α × β)) (k : α) :
    dictGet m k = none ↔ k ∉ m.map Prod.fst := by
  induction m with
  | nil => simp [dictGet]
  | cons p rest ih =>
    by_cases h : p.1 = k
    · simp [dictGet, h]
    · simp only [dictGet, h, if_false, List.map_cons, List.mem_cons]
      rw [ih]
      constructor
      · intro hn hc
        rcases hc with hc | hc
        · exact h hc.symm
        · exact hn hc
      · intro hn hc
        exact hn (Or.inr hc)

theorem dictGet_append {α β : Type} [DecidableEq α] (m1 m2 : List (α × β)) (k : α) :
    dictGet (m1 ++ m2) k =
      match dictGet m1 k with
      | some v => some v
      | none => dictGet m2 k := by
  induction m1 with
  | nil => simp [dictGet]
  | cons p rest ih =>
    by_cases h : p.1 = k <;> simp [dictGet, h, ih]

theorem dictGet_of_mem_nodup {α β : Type} [DecidableEq α] (m : List (α × β))
    (k : α) (s : β) (hnd : (m.map Prod.fst).Nodup) (hmem : (k, s) ∈ m) :
    dictGet m k = some s := by
  induction m with
  | nil => simp at hmem
  | cons p rest ih =>
    simp only [List.map_cons, List.nodup_cons] at hnd
    rcases List.mem_cons.mp hmem with h | h
    · rw [← h]; simp [dictGet]
    · have hk : ¬ p.1 = k := by
        intro hc
        exact hnd.1 (hc ▸ (List.mem_map.mpr ⟨(k, s), h, rfl⟩))
      simp [dictGet, hk, ih hnd.2 h]

theorem mem_of_dictGet {α β : Type} [DecidableEq α] (m : List (α × β))
    (k : α) (s : β) (h : dictGet m k = some s) : (k, s) ∈ m := by
  induction m with
  | nil => simp [dictGet] at h
  | cons p rest ih =>
    by_cases h2 : p.1 = k
    · simp only [dictGet, h2, if_true, Option.some_inj] at h
      have hps : p = (k, s) := Prod.ext h2 h
      rw [← hps]
      exact List.mem_cons_self p rest
    · simp only [dictGet, h2, if_false] at h
      exact List.mem_cons_of_mem _ (ih h)

theorem markRemote_get_self (m : SyncMap) (b aid : Nat) :
    dictGet (markRemote m b aid) b =
      some (match dictGet m b with
            | some s => { s with on_remote := s.on_remote ++ [aid] }
            | none => { BugSync.init b with on_remote := [aid] }) := by
  unfold markRemote
  cases hm : dictGet m b with
  | some s => simp [dictGet_dictSet_self]
  | none => rw [dictGet_append]; simp [hm, dictGet]

theorem markRemote_get_ne (m : SyncMap) (b aid x : Nat) (hx : x ≠ b) :
    dictGet (markRemote m b aid) x = dictGet m x := by
  unfold markRemote
  cases hm : dictGet m b with
  | some s => simp [dictGet_dictSet_ne _ _ _ _ hx]
  | none =>
    rw [dictGet_append]
    cases hg : dictGet m x with
    | some v => simp
    | none =>
      have hbx : ¬ b = x := fun h => hx h.symm
      simp [dictGet, hbx]

theorem markTracker_get_self (m : SyncMap) (b : Nat) (data : Record) (aid : Nat) :
    dictGet (markTracker m b data aid) b =
      some (match dictGet m b with
            | some s => { s with
                bug_data := match s.bug_data with | none => some data | some d => some d,
                on_bugzilla := s.on_bugzilla ++ [aid] }
            | none => { BugSync.init b with bug_data := some data, on_bugzilla := [aid] }) := by
  unfold markTracker
  cases hm : dictGet m b with
  | some s => simp [dictGet_dictSet_self]
  | none => rw [dictGet_append]; simp [hm, dictGet]

theorem markTracker_get_ne (m : SyncMap) (b : Nat) (data : Record) (aid x : Nat)
    (hx : x ≠ b) : dictGet (markTracker m b data aid) x = dictGet m x := by
  unfold markTracker
  cases hm : dictGet m b with
  | some s => simp [dictGet_dictSet_ne _ _ _ _ hx]
  | none =>
    rw [dictGet_append]
    cases hg : dictGet m x with
    | some v => simp
    | none =>
      have hbx : ¬ b = x := fun h => hx h.symm
      simp [dictGet, hbx]

theorem foldRemote_get (ids : List Nat) (m : SyncMap) (aid bid : Nat) :
    dictGet (ids.foldl (fun mm b => markRemote mm b aid) m) bid =
      match dictGet m bid with
      | some s => some { s with on_remote := s.on_remote ++ occsR ids bid aid }
      | none =>
        if occsR ids bid aid = [] then none
        else some { BugSync.init bid with on_remote := occsR ids bid aid } := by
  induction ids generalizing m with
  | nil =>
    simp only [List.foldl_nil, occsR, List.filter_nil, List.map_nil]
    cases hm : dictGet m bid with
    | some s => cases s; simp
    | none => simp
  | cons b ids ih =>
    simp only [List.foldl_cons]
    rw [ih]
    by_cases hb : b = bid
    · subst hb
      rw [markRemote_get_self]
      cases hm : dictGet m b with
      | some s =>
        simp [occsR, List.filter_cons]
      | none =>
        simp [occsR, List.filter_cons, BugSync.init]
    · rw [markRemote_get_ne _ _ _ _ (fun h => hb h.symm)]
      have hocc : occsR (b :: ids) bid aid = occsR ids bid aid := by
        simp [occsR, List.filter_cons, hb]
      rw [hocc]

theorem foldTracker_get (entries : List (Nat × Record)) (m : SyncMap) (aid bid : Nat) :
    dictGet (entries.foldl (fun mm p => markTracker mm p.1 p.2 aid) m) bid =
      match dictGet m bid with
      | some s => some { s with
          bug_data := (match s.bug_data with
                       | none => firstT entries bid
                       | some d => some d),
          on_bugzilla := s.on_bugzilla ++ occsT entries bid aid }
      | none =>
        if occsT entries bid aid = [] then none
        else some ⟨bid, [], occsT entries bid aid, firstT entries bid, none⟩ := by
  induction entries generalizing m with
  | nil =>
    simp only [List.foldl_nil, occsT, firstT, List.filter_nil, List.map_nil]
    cases hm : dictGet m bid with
    | some s =>
      obtain ⟨a1, a2, a3, a4, a5⟩ := s
      cases a4 <;> simp
    | none => simp
  | cons p entries ih =>
    simp only [List.foldl_cons]
    rw [ih]
    by_cases hb : p.1 = bid
    · rw [← hb, markTracker_get_self]
      cases hm : dictGet m p.1 with
      | some s =>
        cases hd : s.bug_data with
        | none => simp [occsT, firstT, List.filter_cons, hb, hd]
        | some d => simp [occsT, firstT, List.filter_cons, hb, hd]
      | none =>
        simp [occsT, firstT, List.filter_cons, hb, BugSync.init]
    · rw [markTracker_get_ne _ _ _ _ _ (fun h => hb h.symm)]
      have hocc : occsT (p :: entries) bid aid = occsT entries bid aid := by
        simp [occsT, List.filter_cons, hb]
      have hft : firstT (p :: entries) bid = firstT entries bid := by
        simp [firstT, List.filter_cons, hb]
      rw [hocc, hft]

theorem markRemote_nodup (m : SyncMap) (b aid : Nat)
    (h : (m.map Prod.fst).Nodup) : ((markRemote m b aid).map Prod.fst).Nodup := by
  unfold markRemote
  cases hm : dictGet m b with
  | some s => rw [dictSet_keys_of_mem _ _ _ _ hm]; exact h
  | none =>
    rw [List.map_append]
    have hb : b ∉ m.map Prod.fst := (dictGet_none_iff m b).mp hm
    rw [List.nodup_append]
    refine ⟨h, List.nodup_singleton b, ?_⟩
    intro x hx hx2
    simp only [List.map_cons, List.map_nil, List.mem_singleton] at hx2
    exact hb (hx2 ▸ hx)

theorem markTracker_nodup (m : SyncMap) (b : Nat) (data : Record) (aid : Nat)
    (h : (m.map Prod.fst).Nodup) : ((markTracker m b data aid).map Prod.fst).Nodup := by
  unfold markTracker
  cases hm : dictGet m b with
  | some s => rw [dictSet_keys_of_mem _ _ _ _ hm]; exact h
  | none =>
    rw [List.map_append]
    have hb : b ∉ m.map Prod.fst := (dictGet_none_iff m b).mp hm
    rw [List.nodup_append]
    refine ⟨h, List.nodup_singleton b, ?_⟩
    intro x hx hx2
    simp only [List.map_cons, List.map_nil, List.mem_singleton] at hx2
    exact hb (hx2 ▸ hx)

theorem foldRemote_nodup (ids : List Nat) (aid : Nat) : ∀ (m : SyncMap),
    (m.map Prod.fst).Nodup →
    ((ids.foldl (fun mm b => markRemote mm b aid) m).map Prod.fst).Nodup := by
  induction ids with
  | nil => intro m h; simpa using h
  | cons b ids ih =>
    intro m h
    simp only [List.foldl_cons]
    exact ih _ (markRemote_nodup m b aid h)

theorem foldTracker_nodup (entries : List (Nat × Record)) (aid : Nat) : ∀ (m : SyncMap),
    (m.map Prod.fst).Nodup →
    ((entries.foldl (fun mm p => markTracker mm p.1 p.2 aid) m).map Prod.fst).Nodup := by
  induction entries with
  | nil => intro m h; simpa using h
  | cons p entries ih =>
    intro m h
    simp only [List.foldl_cons]
    exact ih _ (markTracker_nodup m p.1 p.2 aid h)

theorem processAnalysis_nodup (env : Env) (m : SyncMap) (a : Analysis)
    (h : (m.map Prod.fst).Nodup) :
    (((processAnalysis env m a).1).map Prod.fst).Nodup := by
  unfold processAnalysis
  cases env.remoteBugs a.id with
  | error e => exact h
  | ok ids =>
    cases list_bugs env a.parameters with
    | error e => exact foldRemote_nodup ids a.id m h
    | ok raws => exact foldTracker_nodup raws a.id _ (foldRemote_nodup ids a.id m h)

theorem collect_nodup (env : Env) (l : List Analysis) : ∀ (m : SyncMap),
    (m.map Prod.fst).Nodup → (((collect env l m).1).map Prod.fst).Nodup := by
  induction l with
  | nil => intro m h; exact h
  | cons a rest ih =>
    intro m h
    unfold collect
    cases hp : processAnalysis env m a with
    | mk m2 err =>
      have h2 : (m2.map Prod.fst).Nodup := by
        have := processAnalysis_nodup env m a h
        rw [hp] at this
        exact this
      cases err with
      | some e => exact h2
      | none => exact ih m2 h2

theorem firstT_append (x y : List (Nat × Record)) (bid : Nat) :
    firstT (x ++ y) bid = (firstT x bid).or (firstT y bid) := by
  simp [firstT, List.filter_append, List.head?_append]

theorem occsT_nil_firstT (e : List (Nat × Record)) (bid aid : Nat)
    (h : occsT e bid aid = []) : firstT e bid = none := by
  simp only [occsT, List.map_eq_nil_iff] at h
  simp [firstT, h]

theorem expBugData_cons (env : Env) (a : Analysis) (rest : List Analysis) (bid : Nat) :
    expBugData env (a :: rest) bid =
      (firstT (trackOk env a) bid).or (expBugData env rest bid) := by
  simp [expBugData, List.flatMap_cons, firstT_append]

theorem processAnalysis_get (env : Env) (m : SyncMap) (a : Analysis) (m2 : SyncMap)
    (h : processAnalysis env m a = (m2, none)) (bid : Nat) :
    dictGet m2 bid =
      match dictGet m bid with
      | some s => some { s with
          bug_data := (match s.bug_data with
                       | none => firstT (trackOk env a) bid
                       | some d => some d),
          on_remote := s.on_remote ++ occsR (remoteOk env a) bid a.id,
          on_bugzilla := s.on_bugzilla ++ occsT (trackOk env a) bid a.id }
      | none =>
        if occsR (remoteOk env a) bid a.id = [] ∧ occsT (trackOk env a) bid a.id = []
        then none
        else some ⟨bid, occsR (remoteOk env a) bid a.id,
                   occsT (trackOk env a) bid a.id,
                   firstT (trackOk env a) bid, none⟩ := by
  unfold processAnalysis at h
  cases hr : env.remoteBugs a.id with
  | error e => rw [hr] at h; simp at h
  | ok ids =>
    rw [hr] at h
    cases hl : list_bugs env a.parameters with
    | error e => rw [hl] at h; simp at h
    | ok raws =>
      rw [hl] at h
      simp only [Prod.mk.injEq] at h
      have hro : remoteOk env a = ids := by simp [remoteOk, hr]
      have hto : trackOk env a = raws := by simp [trackOk, hl]
      rw [← h.1, hro, hto, foldTracker_get, foldRemote_get]
      cases hg : dictGet m bid with
      | some s =>
        simp only []
      | none =>
        by_cases h1 : occsR ids bid a.id = []
        · by_cases h2 : occsT raws bid a.id = []
          · simp [h1, h2]
          · simp [h1, h2, BugSync.init]
        · by_cases h2 : occsT raws bid a.id = []
          · simp [h1, h2, BugSync.init]
          · simp [h1, h2, BugSync.init]

theorem collect_get (env : Env) (l : List Analysis) : ∀ (m : SyncMap),
    (collect env l m).2 = none →
    ∀ bid, dictGet (collect env l m).1 bid =
      match dictGet m bid with
      | some s => some { s with
          bug_data := (match s.bug_data with
                       | none => expBugData env l bid
                       | some d => some d),
          on_remote := s.on_remote ++ expOnRemote env l bid,
          on_bugzilla := s.on_bugzilla ++ expOnBugzilla env l bid }
      | none =>
        if expOnRemote env l bid = [] ∧ expOnBugzilla env l bid = [] then none
        else some ⟨bid, expOnRemote env l bid, expOnBugzilla env l bid,
                   expBugData env l bid, none⟩ := by
  induction l with
  | nil =>
    intro m _ bid
    simp only [collect]
    cases hg : dictGet m bid with
    | some s =>
      obtain ⟨b1, b2, b3, b4, b5⟩ := s
      cases b4 <;>
        simp [expOnRemote, expOnBugzilla, expBugData, firstT]
    | none => simp [expOnRemote, expOnBugzilla]
  | cons a rest ih =>
    intro m h bid
    simp only [collect] at h ⊢
    cases hp : processAnalysis env m a with
    | mk m2 err =>
      cases err with
      | some e => rw [hp] at h; simp at h
      | none =>
        rw [hp] at h
        have h2 : (collect env rest m2).2 = none := h
        show dictGet (collect env rest m2).1 bid = _
        rw [ih m2 h2 bid, processAnalysis_get env m a m2 hp bid]
        cases hg : dictGet m bid with
        | some s =>
          simp only []
          obtain ⟨b1, b2, b3, b4, b5⟩ := s
          cases hb : b4 with
          | some d =>
            simp [expOnRemote, expOnBugzilla, expBugData_cons,
                  List.flatMap_cons, List.append_assoc]
          | none =>
            cases hf : firstT (trackOk env a) bid <;>
              simp [expOnRemote, expOnBugzilla, expBugData_cons, hf,
                    List.flatMap_cons, List.append_assoc, Option.or]
        | none =>
          by_cases h1 : occsR (remoteOk env a) bid a.id = []
          · by_cases h2 : occsT (trackOk env a) bid a.id = []
            · simp [h1, h2, occsT_nil_firstT _ _ _ h2, expOnRemote, expOnBugzilla,
                    expBugData_cons, List.flatMap_cons, Option.or]
            · cases hf : firstT (trackOk env a) bid <;>
                simp [h1, h2, hf, expOnRemote, expOnBugzilla, expBugData_cons,
                      List.flatMap_cons, List.append_assoc, Option.or]
          · cases hf : firstT (trackOk env a) bid <;>
              simp [h1, hf, expOnRemote, expOnBugzilla, expBugData_cons,
                    List.flatMap_cons, List.append_assoc, Option.or]

theorem reconcileBug_calls_ne (env : Env) (url : String) (bid : Nat) (s : BugSync)
    (x : Nat) (hx : x ≠ bid) : callsFor (reconcileBug env url bid s).1 x = [] := by
  have hbx : ¬ bid = x := fun hc => hx hc.symm
  unfold reconcileBug
  split
  · split
    · simp [callsFor]
    · split
      · split
        · split <;> simp [callsFor, callFor, hbx]
        · simp [callsFor]
      · simp [callsFor]
  · split
    · split <;> simp [callsFor, callFor, hbx]
    · simp [callsFor]

theorem reconcile_append (env : Env) (url : String) (m1 m2 : SyncMap) :
    reconcile env url (m1 ++ m2) =
      match reconcile env url m1 with
      | (acts, some e) => (acts, some e)
      | (acts, none) =>
        (acts ++ (reconcile env url m2).1, (reconcile env url m2).2) := by
  induction m1 with
  | nil => simp [reconcile]
  | cons p rest ih =>
    obtain ⟨bid, s⟩ := p
    simp only [List.cons_append, reconcile]
    cases hb : reconcileBug env url bid s with
    | mk acts err =>
      cases err with
      | some e => simp
      | none =>
        cases hr : reconcile env url rest with
        | mk a2 e2 =>
          rw [hr] at ih
          cases e2 with
          | some e => simp [ih]
          | none => simp [ih, List.append_assoc]

theorem reconcile_calls_notin (env : Env) (url : String) (m : SyncMap) (bid : Nat)
    (h : bid ∉ m.map Prod.fst) : callsFor (reconcile env url m).1 bid = [] := by
  induction m with
  | nil => simp [reconcile, callsFor]
  | cons p rest ih =>
    obtain ⟨k, s⟩ := p
    simp only [List.map_cons, List.mem_cons, not_or] at h
    have hk : callsFor (reconcileBug env url k s).1 bid = [] :=
      reconcileBug_calls_ne env url k s bid h.1
    simp only [reconcile]
    cases hb : reconcileBug env url k s with
    | mk acts err =>
      rw [hb] at hk
      cases err with
      | some e => exact hk
      | none =>
        simp only [callsFor, List.filter_append] at *
        rw [hk, List.nil_append]
        exact ih h.2

theorem update_ok_payload (env : Env) (url : String) (s s2 : BugSync)
    (hp : s.payload = none) (h : BugSync.update env url s = .ok (s2, true)) :
    ∃ p : Payload, s2.payload = some p ∧ p.analysis = s.on_bugzilla ∧
      p.payload_hash = compute_dict_hash s.bug_data ∧
      p.bugzilla_id = s.bugzilla_id ∧ p.payload.bug = s.bug_data := by
  unfold BugSync.update at h
  rw [hp] at h
  simp only [Option.isSome_none, Bool.false_eq_true, if_false] at h
  split at h
  · simp at h
  · split at h
    · simp at h
    · split at h
      · simp at h
      · simp only [Except.ok.injEq, Prod.mk.injEq, and_true] at h
        rw [← h]
        exact ⟨_, rfl, rfl, rfl, rfl, rfl⟩

theorem reconcileBug_post (env : Env) (url : String) (bid : Nat) (s s2 : BugSync)
    (p : Payload) (h1 : 0 < s.on_bugzilla.length)
    (hu : BugSync.update env url s = .ok (s2, true)) (hp2 : s2.payload = some p) :
    reconcileBug env url bid s =
      match env.postResult bid with
      | .ok _ => ([.post bid p, .logInfo ("Added bug #" ++ toString bid ++
          " on analysis " ++ joinIds s.on_bugzilla)], none)
      | .error e => ([.post bid p, .logError ("Failed to add bug #" ++
          toString bid ++ " : " ++ e)], none) := by
  unfold reconcileBug
  rw [if_pos h1, hu]
  simp [hp2]

theorem reconcileBug_updErr (env : Env) (url : String) (bid : Nat) (s : BugSync)
    (e : String) (h1 : 0 < s.on_bugzilla.length)
    (hu : BugSync.update env url s = .error e) :
    reconcileBug env url bid s = ([], some e) := by
  unfold reconcileBug
  rw [if_pos h1, hu]

theorem reconcileBug_updFalse (env : Env) (url : String) (bid : Nat) (s s2 : BugSync)
    (h1 : 0 < s.on_bugzilla.length)
    (hu : BugSync.update env url s = .ok (s2, false)) :
    reconcileBug env url bid s = ([], none) := by
  unfold reconcileBug
  rw [if_pos h1, hu]
  simp

theorem reconcileBug_delete (env : Env) (url : String) (bid : Nat) (s : BugSync)
    (h1 : ¬ 0 < s.on_bugzilla.length) (h2 : 0 < s.on_remote.length) :
    reconcileBug env url bid s =
      match env.deleteResult bid with
      | .ok _ => ([.deleteBug bid, .logInfo ("Deleted bug #" ++ toString bid ++
          " from analysis " ++ joinIds s.on_remote)], none)
      | .error e => ([.deleteBug bid, .logWarning ("Failed to delete bug #" ++
          toString bid ++ " : " ++ e)], none) := by
  unfold reconcileBug
  rw [if_neg h1, if_pos h2]

theorem reconcileBug_none (env : Env) (url : String) (bid : Nat) (s : BugSync)
    (h1 : ¬ 0 < s.on_bugzilla.length) (h2 : ¬ 0 < s.on_remote.length) :
    reconcileBug env url bid s = ([], none) := by
  unfold reconcileBug
  rw [if_neg h1, if_neg h2]

theorem processAnalysis_ok_calls (env : Env) (m : SyncMap) (a : Analysis)
    (m2 : SyncMap) (h : processAnalysis env m a = (m2, none)) :
    (∃ l, env.remoteBugs a.id = .ok l) ∧ (∃ l, list_bugs env a.parameters = .ok l) := by
  unfold processAnalysis at h
  cases hr : env.remoteBugs a.id with
  | error e => rw [hr] at h; simp at h
  | ok ids =>
    rw [hr] at h
    cases hl : list_bugs env a.parameters with
    | error e => rw [hl] at h; simp at h
    | ok raws => exact ⟨⟨ids, rfl⟩, ⟨raws, rfl⟩⟩

theorem collect_err_of_fail (env : Env) (l : List Analysis)
    (h : ∃ a ∈ l, (∃ e, env.remoteBugs a.id = .error e) ∨
                  (∃ e, list_bugs env a.parameters = .error e)) :
    ∀ m, ((collect env l m).2).isSome := by
  induction l with
  | nil => simp at h
  | cons a rest ih =>
    intro m
    obtain ⟨a2, ha2, hfail⟩ := h
    unfold collect
    cases hp : processAnalysis env m a with
    | mk m2 err =>
      cases err with
      | some e => simp
      | none =>
        rcases List.mem_cons.mp ha2 with rfl | hmem
        · obtain ⟨⟨lr, hlr⟩, ⟨lt, hlt⟩⟩ := processAnalysis_ok_calls env m a2 m2 hp
          rcases hfail with ⟨e, he⟩ | ⟨e, he⟩
          · rw [hlr] at he; cases he
          · rw [hlt] at he; cases he
        · exact ih ⟨a2, hmem, hfail⟩ m2

theorem runBot_collect_err (env : Env) (url : String) (analyses : List Analysis)
    (e : String) (h : env.allAnalysis = .ok analyses)
    (hc : (collect env analyses []).2 = some e) : runBot env url = ([], some e) := by
  cases hcc : collect env analyses [] with
  | mk m2 err =>
    rw [hcc] at hc
    simp only at hc
    subst hc
    simp only [runBot, h, hcc]

theorem runBot_reconcile (env : Env) (url : String) (analyses : List Analysis)
    (m : SyncMap) (h : env.allAnalysis = .ok analyses)
    (hc : collect env analyses [] = (m, none)) :
    runBot env url = reconcile env url m := by
  simp only [runBot, h, hc]

theorem expOnRemote_ne_nil_iff (env : Env) (l : List Analysis) (bid : Nat) :
    expOnRemote env l bid ≠ [] ↔ ∃ a ∈ l, bid ∈ remoteOk env a := by
  unfold expOnRemote
  rw [ne_eq, List.flatMap_eq_nil_iff]
  push_neg
  constructor
  · rintro ⟨a, ha, hne⟩
    refine ⟨a, ha, ?_⟩
    unfold occsR at hne
    rw [ne_eq, List.map_eq_nil_iff, List.filter_eq_nil_iff] at hne
    push_neg at hne
    obtain ⟨b, hb, hbid⟩ := hne
    simp only [decide_eq_true_eq] at hbid
    exact hbid ▸ hb
  · rintro ⟨a, ha, hmem⟩
    refine ⟨a, ha, ?_⟩
    unfold occsR
    rw [ne_eq, List.map_eq_nil_iff, List.filter_eq_nil_iff]
    push_neg
    exact ⟨bid, hmem, by simp⟩

theorem expOnBugzilla_ne_nil_iff (env : Env) (l : List Analysis) (bid : Nat) :
    expOnBugzilla env l bid ≠ [] ↔
      ∃ a ∈ l, bid ∈ (trackOk env a).map Prod.fst := by
  unfold expOnBugzilla
  rw [ne_eq, List.flatMap_eq_nil_iff]
  push_neg
  constructor
  · rintro ⟨a, ha, hne⟩
    refine ⟨a, ha, ?_⟩
    unfold occsT at hne
    rw [ne_eq, List.map_eq_nil_iff, List.filter_eq_nil_iff] at hne
    push_neg at hne
    obtain ⟨p, hp, hbid⟩ := hne
    simp only [decide_eq_true_eq] at hbid
    exact List.mem_map.mpr ⟨p, hp, hbid⟩
  · rintro ⟨a, ha, hmem⟩
    refine ⟨a, ha, ?_⟩
    unfold occsT
    rw [ne_eq, List.map_eq_nil_iff, List.filter_eq_nil_iff]
    push_neg
    obtain ⟨p, hp, hbid⟩ := List.mem_map.mp hmem
    exact ⟨p, hp, by simp [hbid]⟩

theorem mergeStep_keys (bugs : List (Nat × Record)) (p : Nat × Value) :
    (mergeStep bugs p).map Prod.fst = bugs.map Prod.fst := by
  unfold mergeStep
  cases hg : dictGet bugs p.1 with
  | none => rfl
  | some r => exact dictSet_keys_of_mem bugs p.1 _ r hg

theorem mergeStep_get_ne (bugs : List (Nat × Record)) (p : Nat × Value) (bid : Nat)
    (hne : p.1 ≠ bid) : dictGet (mergeStep bugs p) bid = dictGet bugs bid := by
  unfold mergeStep
  cases hg : dictGet bugs p.1 with
  | none => rfl
  | some r => exact dictGet_dictSet_ne _ _ _ _ (fun h => hne h.symm)

theorem list_bugs_merge_keys : ∀ (atts : List (Nat × Value)) (bugs : List (Nat × Record)),
    (list_bugs_merge bugs atts).map Prod.fst = bugs.map Prod.fst := by
  intro atts
  induction atts with
  | nil => intro bugs; rfl
  | cons p rest ih =>
    intro bugs
    show (list_bugs_merge (mergeStep bugs p) rest).map Prod.fst = _
    rw [ih, mergeStep_keys]

theorem list_bugs_merge_get : ∀ (atts : List (Nat × Value)) (bugs : List (Nat × Record))
    (bid : Nat), (atts.map Prod.fst).Nodup →
    dictGet (list_bugs_merge bugs atts) bid =
      match dictGet bugs bid, dictGet atts bid with
      | some r, some al => some (dictSet r "attachments" al)
      | some r, none => some r
      | none, _ => none := by
  intro atts
  induction atts with
  | nil =>
    intro bugs bid _
    cases hg : dictGet bugs bid <;> simp [list_bugs_merge, dictGet, hg]
  | cons p rest ih =>
    intro bugs bid hnd
    obtain ⟨k, al0⟩ := p
    simp only [List.map_cons, List.nodup_cons] at hnd
    show dictGet (list_bugs_merge (mergeStep bugs (k, al0)) rest) bid = _
    rw [ih _ bid hnd.2]
    by_cases hk : k = bid
    · subst hk
      have hrest : dictGet rest k = none := by
        rw [dictGet_none_iff]
        exact hnd.1
      rw [hrest]
      unfold mergeStep
      cases hg : dictGet bugs k with
      | none => simp [dictGet, hg]
      | some r =>
        simp only []
        rw [dictGet_dictSet_self]
        simp [dictGet]
    · have hcons : dictGet ((k, al0) :: rest) bid = dictGet rest bid := by
        simp [dictGet, hk]
      rw [hcons, mergeStep_get_ne bugs (k, al0) bid hk]

/-- C9: when listing bugs for an analysis query, the merge of the bug map
and the attachment map never drops or adds a bug record (the key set is
unchanged); every bug with an attachment entry carries that attachment
list under its `attachments` key; a bug with no attachment entry keeps
its record unchanged; and attachment entries whose bug id has no matching
bug record are silently skipped (absent bugs stay absent). -/
theorem claim_C9_list_bugs_merge (bugs : List (Nat × Record))
    (atts : List (Nat × Value)) (hnd : (atts.map Prod.fst).Nodup) :
    (list_bugs_merge bugs atts).map Prod.fst = bugs.map Prod.fst ∧
    (∀ bid r al, dictGet bugs bid = some r → dictGet atts bid = some al →
      dictGet (list_bugs_merge bugs atts) bid = some (dictSet r "attachments" al) ∧
      dictGet (dictSet r "attachments" al) "attachments" = some al) ∧
    (∀ bid r, dictGet bugs bid = some r → dictGet atts bid = none →
      dictGet (list_bugs_merge bugs atts) bid = some r) ∧
    (∀ bid, dictGet bugs bid = none →
      dictGet (list_bugs_merge bugs atts) bid = none) := by
  refine ⟨list_bugs_merge_keys atts bugs, ?_, ?_, ?_⟩
  · intro bid r al hb ha
    rw [list_bugs_merge_get atts bugs bid hnd, hb, ha]
    exact ⟨rfl, dictGet_dictSet_self r "attachments" al⟩
  · intro bid r hb ha
    rw [list_bugs_merge_get atts bugs bid hnd, hb, ha]
  · intro bid hb
    rw [list_bugs_merge_get atts bugs bid hnd, hb]

/-- Witness for C9 at a concrete input. -/
theorem claim_C9_witness :
    (list_bugs_merge cw9_bugs cw9_atts).map Prod.fst = cw9_bugs.map Prod.fst ∧
    (∀ bid r al, dictGet cw9_bugs bid = some r → dictGet cw9_atts bid = some al →
      dictGet (list_bugs_merge cw9_bugs cw9_atts) bid =
        some (dictSet r "attachments" al) ∧
      dictGet (dictSet r "attachments" al) "attachments" = some al) ∧
    (∀ bid r, dictGet cw9_bugs bid = some r → dictGet cw9_atts bid = none →
      dictGet (list_bugs_merge cw9_bugs cw9_atts) bid = some r) ∧
    (∀ bid, dictGet cw9_bugs bid = none →
      dictGet (list_bugs_merge cw9_bugs cw9_atts) bid = none) :=
  claim_C9_list_bugs_merge cw9_bugs cw9_atts (by decide)

/-- C8: the content hash stored in the upserted payload is computed over
the raw tracker record only. Two successful payload assemblies, possibly
under different environments (hence different analyzer results and
rendered uplift comments) and different base urls, built from equal raw
records carry equal hashes, and their hashes differ whenever the raw
records differ in any way. -/
theorem claim_C8_payload_hash (env1 env2 : Env) (url1 url2 : String)
    (s1 s2 s1b s2b : BugSync) (p1 p2 : Payload)
    (hp1 : s1.payload = none) (hp2 : s2.payload = none)
    (h1 : BugSync.update env1 url1 s1 = .ok (s1b, true))
    (hq1 : s1b.payload = some p1)
    (h2 : BugSync.update env2 url2 s2 = .ok (s2b, true))
    (hq2 : s2b.payload = some p2) :
    (s1.bug_data = s2.bug_data → p1.payload_hash = p2.payload_hash) ∧
    (s1.bug_data ≠ s2.bug_data → p1.payload_hash ≠ p2.payload_hash) := by
  obtain ⟨q1, hq1b, _, hh1, _, _⟩ := update_ok_payload env1 url1 s1 s1b hp1 h1
  obtain ⟨q2, hq2b, _, hh2, _, _⟩ := update_ok_payload env2 url2 s2 s2b hp2 h2
  rw [hq1b] at hq1
  rw [hq2b] at hq2
  injection hq1 with hq1
  injection hq2 with hq2
  subst hq1
  subst hq2
  constructor
  · intro he
    rw [hh1, hh2, he]
  · intro hne hc
    rw [hh1, hh2] at hc
    exact hne (compute_dict_hash_inj _ _ hc)

/-- Witness for C8 at a concrete input. -/
theorem claim_C8_witness :
    (cw8_s1.bug_data = cw8_s2.bug_data →
      cw8_p1.payload_hash = cw8_p2.payload_hash) ∧
    (cw8_s1.bug_data ≠ cw8_s2.bug_data →
      cw8_p1.payload_hash ≠ cw8_p2.payload_hash) :=
  claim_C8_payload_hash cw8_env cw8_env "u" "u"
    cw8_s1 cw8_s2 { cw8_s1 with payload := some cw8_p1 }
    { cw8_s2 with payload := some cw8_p2 } cw8_p1 cw8_p2
    rfl rfl rfl rfl rfl rfl

/-- C6: in role extraction, user references resolving to the same key
collapse onto one entry carrying all roles. For an analysis whose
assignee reference and (sole) reviewer reference resolve to the same user
key, the role map holds exactly one entry for that key with roles
assignee and reviewer, and the user lookup returns exactly one resolved
profile carrying both roles, not two profiles. -/
theorem claim_C6_role_collapse (env : Env) (analysis ufs : Record)
    (rA rR k : Value) (u : Record) (em : Value)
    (hU : dictGet analysis "users" = some (Value.obj ufs))
    (hC : dictGet ufs "creator" = none)
    (hA : dictGet ufs "assignee" = some rA)
    (hR : dictGet ufs "reviewers" = some (Value.arr [rR]))
    (hUA : dictGet analysis "uplift_author" = some Value.null)
    (hkA : refKey rA = .ok (some k))
    (hkR : refKey rR = .ok (some k))
    (hu : env.fetchUser k = u)
    (hid : dictGet u "id" = some k)
    (hem : dictGet u "email" = some em) :
    buildRoles analysis = .ok [(k, ["assignee", "reviewer"])] ∧
    load_users env analysis =
      .ok [dictSet u "roles"
        (Value.arr [Value.str "assignee", Value.str "reviewer"])] := by
  have hknull : refKey Value.null = Except.ok none := rfl
  have hroles : buildRoles analysis = .ok [(k, ["assignee", "reviewer"])] := by
    simp [buildRoles, extractUser, extractReviewers, addRole, hU, hC, hA, hR,
          hUA, hkA, hkR, hknull, dictGet, dictSet]
  refine ⟨hroles, ?_⟩
  simp [load_users, hroles, resolveUsers, handlerRoles, hu, hid, hem, dictGet]

/-- Witness for C6 at a concrete input. -/
theorem claim_C6_witness :
    buildRoles cw6_ana = .ok [(Value.num 7, ["assignee", "reviewer"])] ∧
    load_users cw6_env cw6_ana =
      .ok [dictSet cw6_u "roles"
        (Value.arr [Value.str "assignee", Value.str "reviewer"])] :=
  claim_C6_role_collapse cw6_env cw6_ana cw6_ufs
    (Value.obj [("id", Value.num 7)]) (Value.obj [("id", Value.num 7)])
    (Value.num 7) cw6_u (Value.str "e")
    (by decide) (by decide) (by decide) (by decide) (by decide)
    rfl rfl rfl (by decide) (by decide)

theorem collect_mem_char (env : Env) (analyses : List Analysis) (m : SyncMap)
    (hc : collect env analyses [] = (m, none)) (bid : Nat) (s : BugSync)
    (hmem : (bid, s) ∈ m) :
    s = ⟨bid, expOnRemote env analyses bid, expOnBugzilla env analyses bid,
         expBugData env analyses bid, none⟩ ∧
    ¬(expOnRemote env analyses bid = [] ∧ expOnBugzilla env analyses bid = []) := by
  have hnd := collect_nodup env analyses [] List.nodup_nil
  rw [hc] at hnd
  have hgs : dictGet m bid = some s := dictGet_of_mem_nodup m bid s hnd hmem
  have hget := collect_get env analyses [] (by rw [hc]) bid
  rw [hc] at hget
  simp only [dictGet] at hget
  rw [hgs] at hget
  by_cases hcond : expOnRemote env analyses bid = [] ∧ expOnBugzilla env analyses bid = []
  · rw [if_pos hcond] at hget
    cases hget
  · rw [if_neg hcond] at hget
    injection hget with hget
    exact ⟨hget, hcond⟩

theorem collect_get_none (env : Env) (analyses : List Analysis) (m : SyncMap)
    (hc : collect env analyses [] = (m, none)) (bid : Nat)
    (hcond : expOnRemote env analyses bid = [] ∧ expOnBugzilla env analyses bid = []) :
    dictGet m bid = none := by
  have hget := collect_get env analyses [] (by rw [hc]) bid
  rw [hc] at hget
  simp only [dictGet] at hget
  rw [hget, if_pos hcond]

theorem occsT_ne_nil_firstT (e : List (Nat × Record)) (bid aid : Nat)
    (h : occsT e bid aid ≠ []) : ∃ r, firstT e bid = some r := by
  unfold occsT at h
  rw [ne_eq, List.map_eq_nil_iff] at h
  obtain ⟨x, xs, hx⟩ := List.exists_cons_of_ne_nil h
  refine ⟨x.2, ?_⟩
  unfold firstT
  rw [hx]
  rfl

theorem expOnBugzilla_bug_data (env : Env) (l : List Analysis) (bid : Nat)
    (h : expOnBugzilla env l bid ≠ []) : ∃ r, expBugData env l bid = some r := by
  induction l with
  | nil => simp [expOnBugzilla] at h
  | cons a rest ih =>
    rw [expBugData_cons]
    have hsplit : expOnBugzilla env (a :: rest) bid =
        occsT (trackOk env a) bid a.id ++ expOnBugzilla env rest bid := by
      simp [expOnBugzilla, List.flatMap_cons]
    rw [hsplit] at h
    by_cases h1 : occsT (trackOk env a) bid a.id = []
    · rw [h1, List.nil_append] at h
      obtain ⟨r, hr⟩ := ih h
      rw [hr]
      cases hf : firstT (trackOk env a) bid with
      | none => exact ⟨r, rfl⟩
      | some r2 => exact ⟨r2, rfl⟩
    · obtain ⟨r, hr⟩ := occsT_ne_nil_firstT _ _ _ h1
      rw [hr]
      exact ⟨r, rfl⟩

/-- C5: for every bug sync state produced by a successful collection, the
raw record `bug_data` is the record of the first tracker query entry
matching the bug, taken across the analyses in their processed order
(first writer wins; later matches never overwrite it), and the later
matches only append their analysis id: `on_bugzilla` is exactly the
in-order list of analysis ids whose tracker result lists the bug. -/
theorem claim_C5_first_writer_wins (env : Env) (analyses : List Analysis)
    (m : SyncMap) (hc : collect env analyses [] = (m, none)) (bid : Nat)
    (s : BugSync) (hmem : (bid, s) ∈ m) :
    s.bug_data = firstT (analyses.flatMap (fun a => trackOk env a)) bid ∧
    s.on_bugzilla = expOnBugzilla env analyses bid := by
  obtain ⟨hs, _⟩ := collect_mem_char env analyses m hc bid s hmem
  rw [hs]
  exact ⟨rfl, rfl⟩

/-- Witness for C5 at a concrete input. -/
theorem claim_C5_witness :
    cw5_s.bug_data = firstT (cw5_analyses.flatMap (fun a => trackOk cw5_env a)) 1 ∧
    cw5_s.on_bugzilla = expOnBugzilla cw5_env cw5_analyses 1 :=
  claim_C5_first_writer_wins cw5_env cw5_analyses [(1, cw5_s)]
    (by decide) 1 cw5_s (by decide)

/-- C10: in every state reachable at the start of the reconciliation
loop, a sync state with non-empty `on_bugzilla` has a non-null raw
record, and consequently the content hash stored by a successful
`BugSync.update` is computed over that actual tracker record, never over
a null value. -/
theorem claim_C10_hash_over_record (env : Env) (analyses : List Analysis)
    (m : SyncMap) (hc : collect env analyses [] = (m, none)) (url : String)
    (bid : Nat) (s : BugSync) (hmem : (bid, s) ∈ m)
    (hne : s.on_bugzilla ≠ []) :
    ∃ r, s.bug_data = some r ∧
      ∀ s2 p, BugSync.update env url s = .ok (s2, true) → s2.payload = some p →
        p.payload_hash = compute_dict_hash (some r) := by
  obtain ⟨hs, _⟩ := collect_mem_char env analyses m hc bid s hmem
  have hB : expOnBugzilla env analyses bid ≠ [] := by
    rw [hs] at hne
    exact hne
  obtain ⟨r, hr⟩ := expOnBugzilla_bug_data env analyses bid hB
  have hbd : s.bug_data = some r := by rw [hs]; exact hr
  have hpn : s.payload = none := by rw [hs]
  refine ⟨r, hbd, ?_⟩
  intro s2 p hu hp
  obtain ⟨q, hqb, _, hh, _, _⟩ := update_ok_payload env url s s2 hpn hu
  rw [hqb] at hp
  injection hp with hp
  rw [← hp, hh, hbd]

/-- Witness for C10 at a concrete input: the run of the C5 witness. -/
theorem claim_C10_witness :
    ∃ r, cw5_s.bug_data = some r ∧
      ∀ s2 p, BugSync.update cw5_env "u" cw5_s = .ok (s2, true) →
        s2.payload = some p → p.payload_hash = compute_dict_hash (some r) :=
  claim_C10_hash_over_record cw5_env cw5_analyses [(1, cw5_s)]
    (by decide) "u" 1 cw5_s (by decide) (by decide)

/-- C4: a sync state exists in the run map for a bug id if and only if
the id was observed on the remote store listing of some analysis or among
some analysis's tracker results; and for a bug observed by neither, no
remote call (upsert or delete) is ever issued during reconciliation. -/
theorem claim_C4_sync_iff_observed (env : Env) (analyses : List Analysis)
    (m : SyncMap) (url : String) (hc : collect env analyses [] = (m, none)) :
    (∀ bid, (∃ s, (bid, s) ∈ m) ↔
      ∃ a ∈ analyses, bid ∈ remoteOk env a ∨ bid ∈ (trackOk env a).map Prod.fst) ∧
    (∀ bid,
      (¬ ∃ a ∈ analyses, bid ∈ remoteOk env a ∨ bid ∈ (trackOk env a).map Prod.fst) →
      callsFor (reconcile env url m).1 bid = []) := by
  have hobs : ∀ bid,
      (∃ a ∈ analyses, bid ∈ remoteOk env a ∨ bid ∈ (trackOk env a).map Prod.fst) ↔
      ¬(expOnRemote env analyses bid = [] ∧ expOnBugzilla env analyses bid = []) := by
    intro bid
    rw [not_and_or, ← ne_eq, ← ne_eq, expOnRemote_ne_nil_iff, expOnBugzilla_ne_nil_iff]
    constructor
    · rintro ⟨a, ha, hor⟩
      rcases hor with hr | ht
      · exact Or.inl ⟨a, ha, hr⟩
      · exact Or.inr ⟨a, ha, ht⟩
    · rintro (⟨a, ha, hr⟩ | ⟨a, ha, ht⟩)
      · exact ⟨a, ha, Or.inl hr⟩
      · exact ⟨a, ha, Or.inr ht⟩
  constructor
  · intro bid
    rw [hobs bid]
    constructor
    · rintro ⟨s, hmem⟩
      exact (collect_mem_char env analyses m hc bid s hmem).2
    · intro hcond
      have hget := collect_get env analyses [] (by rw [hc]) bid
      rw [hc] at hget
      simp only [dictGet] at hget
      rw [if_neg hcond] at hget
      exact ⟨_, mem_of_dictGet m bid _ hget⟩
  · intro bid hnobs
    rw [hobs bid, not_not] at hnobs
    have hnone := collect_get_none env analyses m hc bid hnobs
    exact reconcile_calls_notin env url m bid ((dictGet_none_iff m bid).mp hnone)

/-- Witness for C4 at a concrete input: the collection of the C5 witness,
where bug 1 is observed and bug 9 is absent from both sources. -/
theorem claim_C4_witness :
    (∀ bid, (∃ s, (bid, s) ∈ [(1, cw5_s)]) ↔
      ∃ a ∈ cw5_analyses, bid ∈ remoteOk cw5_env a ∨
        bid ∈ (trackOk cw5_env a).map Prod.fst) ∧
    (∀ bid,
      (¬ ∃ a ∈ cw5_analyses, bid ∈ remoteOk cw5_env a ∨
        bid ∈ (trackOk cw5_env a).map Prod.fst) →
      callsFor (reconcile cw5_env "u" [(1, cw5_s)]).1 bid = []) :=
  claim_C4_sync_iff_observed cw5_env cw5_analyses [(1, cw5_s)] "u" (by decide)

theorem reconcile_split (env : Env) (url : String) (m1 m2 : SyncMap)
    (bid : Nat) (s : BugSync)
    (herr : (reconcile env url (m1 ++ (bid, s) :: m2)).2 = none) :
    (reconcile env url (m1 ++ (bid, s) :: m2)).1 =
      (reconcile env url m1).1 ++ (reconcileBug env url bid s).1 ++
      (reconcile env url m2).1 := by
  have happ := reconcile_append env url m1 ((bid, s) :: m2)
  have hcons : reconcile env url ((bid, s) :: m2) =
      match reconcileBug env url bid s with
      | (acts, some e) => (acts, some e)
      | (acts, none) =>
        (acts ++ (reconcile env url m2).1, (reconcile env url m2).2) := by
    simp only [reconcile]
  cases h1 : reconcile env url m1 with
  | mk a1 e1 =>
    rw [h1] at happ
    cases e1 with
    | some e =>
      rw [happ] at herr
      simp at herr
    | none =>
      cases hb : reconcileBug env url bid s with
      | mk ab eb =>
        rw [hb] at hcons
        cases eb with
        | some e =>
          simp only [] at hcons
          rw [hcons] at happ
          rw [happ] at herr
          simp at herr
        | none =>
          simp only [] at hcons
          rw [hcons] at happ
          rw [happ]
          simp [List.append_assoc]

/-- C1: the reconciler applies the decision policy in order for every
sync state of a run whose reconciliation raises no uncaught exception.
When `on_bugzilla` is non-empty and payload production succeeds, exactly
one upsert (POST /bugs) is issued for that bug — the single call
addressed to it — tagged with the full `on_bugzilla` set (a bug matched
by two analyses yields one upsert whose membership list holds both ids,
never two upserts), and no delete. Otherwise, when `on_remote` is
non-empty, exactly one delete and no upsert. Otherwise no remote call at
all for that bug. -/
theorem claim_C1_decision_policy (env : Env) (analyses : List Analysis)
    (m : SyncMap) (url : String)
    (hc : collect env analyses [] = (m, none))
    (herr : (reconcile env url m).2 = none)
    (bid : Nat) (s : BugSync) (hmem : (bid, s) ∈ m) :
    (∀ s2, s.on_bugzilla ≠ [] → BugSync.update env url s = .ok (s2, true) →
      ∃ p, s2.payload = some p ∧ p.analysis = s.on_bugzilla ∧
        callsFor (reconcile env url m).1 bid = [BotAction.post bid p]) ∧
    (s.on_bugzilla = [] → s.on_remote ≠ [] →
      callsFor (reconcile env url m).1 bid = [BotAction.deleteBug bid]) ∧
    (s.on_bugzilla = [] → s.on_remote = [] →
      callsFor (reconcile env url m).1 bid = []) := by
  have hnd := collect_nodup env analyses [] List.nodup_nil
  rw [hc] at hnd
  have hpn : s.payload = none := by
    obtain ⟨hs, _⟩ := collect_mem_char env analyses m hc bid s hmem
    rw [hs]
  obtain ⟨m1, m2, rfl⟩ := List.append_of_mem hmem
  rw [List.map_append, List.map_cons, List.nodup_append] at hnd
  obtain ⟨hnd1, hnd2, hdisj⟩ := hnd
  have hbid1 : bid ∉ m1.map Prod.fst := by
    intro hmem1
    exact hdisj hmem1 (List.mem_cons_self bid _)
  have hbid2 : bid ∉ m2.map Prod.fst := (List.nodup_cons.mp hnd2).1
  have htr := reconcile_split env url m1 m2 bid s herr
  have hsplit : callsFor (reconcile env url (m1 ++ (bid, s) :: m2)).1 bid =
      callsFor (reconcileBug env url bid s).1 bid := by
    rw [htr]
    unfold callsFor
    rw [List.filter_append, List.filter_append]
    have hc1 : callsFor (reconcile env url m1).1 bid = [] :=
      reconcile_calls_notin env url m1 bid hbid1
    have hc2 : callsFor (reconcile env url m2).1 bid = [] :=
      reconcile_calls_notin env url m2 bid hbid2
    unfold callsFor at hc1 hc2
    rw [hc1, hc2, List.nil_append, List.append_nil]
  refine ⟨?_, ?_, ?_⟩
  · intro s2 hB hu
    obtain ⟨p, hp, hpa, _, _, _⟩ := update_ok_payload env url s s2 hpn hu
    refine ⟨p, hp, hpa, ?_⟩
    rw [hsplit,
        reconcileBug_post env url bid s s2 p (List.length_pos.mpr hB) hu hp]
    cases env.postResult bid <;> simp [callsFor, callFor]
  · intro hB hR
    rw [hsplit,
        reconcileBug_delete env url bid s
          (by rw [hB]; simp) (List.length_pos.mpr hR)]
    cases env.deleteResult bid <;> simp [callsFor, callFor]
  · intro hB hR
    rw [hsplit,
        reconcileBug_none env url bid s (by rw [hB]; simp) (by rw [hR]; simp)]
    rfl

/-- Witness for C1 at a concrete input: bug 1, matched by both analyses. -/
theorem claim_C1_witness :
    (∀ s2, cw1_s1.on_bugzilla ≠ [] →
      BugSync.update cw1_env "u" cw1_s1 = .ok (s2, true) →
      ∃ p, s2.payload = some p ∧ p.analysis = cw1_s1.on_bugzilla ∧
        callsFor (reconcile cw1_env "u" cw1_m).1 1 = [BotAction.post 1 p]) ∧
    (cw1_s1.on_bugzilla = [] → cw1_s1.on_remote ≠ [] →
      callsFor (reconcile cw1_env "u" cw1_m).1 1 = [BotAction.deleteBug 1]) ∧
    (cw1_s1.on_bugzilla = [] → cw1_s1.on_remote = [] →
      callsFor (reconcile cw1_env "u" cw1_m).1 1 = []) :=
  claim_C1_decision_policy cw1_env cw1_analyses cw1_m "u"
    (by decide) (by decide) 1 cw1_s1 (by decide)

/-- C7: a failed POST of a successfully produced payload is caught: the
attempt is logged at error level and reconciliation proceeds with the
remaining bugs exactly as if unaffected; a failed DELETE is caught and
logged at warning level only, and reconciliation likewise proceeds. In
both cases the trace of the loop on this bug followed by the rest equals
this bug's two actions prepended to the untouched trace of the rest, and
the loop's exception state is exactly that of the rest. -/
theorem claim_C7_call_failures_caught (env : Env) (url : String) (bid : Nat)
    (s s2 : BugSync) (p : Payload) (rest : SyncMap) (e : String) :
    (0 < s.on_bugzilla.length → BugSync.update env url s = .ok (s2, true) →
      s2.payload = some p → env.postResult bid = .error e →
      reconcile env url ((bid, s) :: rest) =
        ([BotAction.post bid p,
          BotAction.logError ("Failed to add bug #" ++ toString bid ++ " : " ++ e)] ++
         (reconcile env url rest).1, (reconcile env url rest).2)) ∧
    (s.on_bugzilla = [] → 0 < s.on_remote.length →
      env.deleteResult bid = .error e →
      reconcile env url ((bid, s) :: rest) =
        ([BotAction.deleteBug bid,
          BotAction.logWarning ("Failed to delete bug #" ++ toString bid ++ " : " ++ e)] ++
         (reconcile env url rest).1, (reconcile env url rest).2)) := by
  constructor
  · intro h1 hu hp hpe
    have hr := reconcileBug_post env url bid s s2 p h1 hu hp
    rw [hpe] at hr
    simp only [] at hr
    simp only [reconcile]
    rw [hr]
  · intro hB h2 hde
    have hr := reconcileBug_delete env url bid s (by rw [hB]; simp) h2
    rw [hde] at hr
    simp only [] at hr
    simp only [reconcile]
    rw [hr]

/-- Witness for C7 at a concrete input: the failed POST is logged at
error level and the loop continues with the remaining (empty) map. -/
theorem claim_C7_witness :
    reconcile cw7_env "u" [(1, cw7_s)] =
      ([BotAction.post 1 cw7_p,
        BotAction.logError ("Failed to add bug #" ++ toString 1 ++ " : " ++ "boom")] ++
       (reconcile cw7_env "u" []).1, (reconcile cw7_env "u" []).2) :=
  (claim_C7_call_failures_caught cw7_env "u" 1 cw7_s
    { cw7_s with payload := some cw7_p } cw7_p [] "boom").1
    (by decide) rfl rfl rfl

/-- Counterexample to C3 as stated: with a malformed user reference on
bug 1, the exception out of payload assembly is not caught — the run
aborts and bug 2, although present in the sync map with a tracker match,
is never processed: the whole run performs no action at all, instead of
continuing with the other bugs. -/
theorem claim_C3_counterexample :
    runBot cw3_env "u" = ([], some "Invalid user data : unsupported format") ∧
    callsFor (runBot cw3_env "u").1 2 = [] := by
  exact ⟨by decide, by decide⟩

/-- C3 as amended: when payload assembly of one bug raises (malformed
user reference), no remote mutation is performed for that bug, the
actions of bugs processed before it are kept, but the exception is not
caught: the run aborts with it and the bugs after it in iteration order
are not processed at all. -/
theorem claim_C3_amended_uncaught (env : Env) (url : String) (m1 m2 : SyncMap)
    (bid : Nat) (s : BugSync) (e : String)
    (h1 : 0 < s.on_bugzilla.length)
    (hu : BugSync.update env url s = .error e)
    (hm1 : (reconcile env url m1).2 = none) :
    reconcile env url (m1 ++ (bid, s) :: m2) = ((reconcile env url m1).1, some e) := by
  have happ := reconcile_append env url m1 ((bid, s) :: m2)
  have hb := reconcileBug_updErr env url bid s e h1 hu
  have hcons : reconcile env url ((bid, s) :: m2) = ([], some e) := by
    simp only [reconcile]
    rw [hb]
  cases h1r : reconcile env url m1 with
  | mk a1 e1 =>
    rw [h1r] at happ hm1
    simp only at hm1
    subst hm1
    rw [hcons] at happ
    simp only [] at happ
    rw [happ]
    simp

/-- Witness for the amended C3 at a concrete input. -/
theorem claim_C3_witness :
    reconcile cw3_env "u" ([] ++ (1, cw3_s1) :: [(2, cw3_s2)]) =
      ((reconcile cw3_env "u" []).1, some "Invalid user data : unsupported format") :=
  claim_C3_amended_uncaught cw3_env "u" [] [(2, cw3_s2)] 1 cw3_s1
    "Invalid user data : unsupported format" (by decide) rfl rfl

/-- Counterexample to C2 as stated: when the remote-store listing of the
first analysis fails, the run does not continue with the remaining
analyses — the exception aborts the whole run before reconciliation, so
bug 7, which belongs only to the healthy second analysis, is not
upserted either, and no remote call at all is made. -/
theorem claim_C2_counterexample :
    runBot cw2_env "u" = ([], some "remote down") ∧
    callsFor (runBot cw2_env "u").1 7 = [] := by
  exact ⟨by decide, by decide⟩

/-- C2 as amended: a failure of the remote-store listing call or of the
tracker query for any analysis in the run's list propagates as an
uncaught exception: the run aborts during collection, no reconciliation
happens, and no bug — of the failed analysis or of any other — is
upserted or deleted in this run. -/
theorem claim_C2_amended_abort (env : Env) (url : String)
    (analyses : List Analysis) (hall : env.allAnalysis = .ok analyses)
    (hfail : ∃ a ∈ analyses, (∃ e, env.remoteBugs a.id = .error e) ∨
             (∃ e, list_bugs env a.parameters = .error e)) :
    (runBot env url).1 = [] ∧ ((runBot env url).2).isSome := by
  have hsome := collect_err_of_fail env analyses hfail []
  cases hce : (collect env analyses []).2 with
  | none => rw [hce] at hsome; simp at hsome
  | some e =>
    rw [runBot_collect_err env url analyses e hall hce]
    exact ⟨rfl, rfl⟩

/-- Witness for the amended C2 at a concrete input. -/
theorem claim_C2_witness :
    (runBot cw2_env "u").1 = [] ∧ ((runBot cw2_env "u").2).isSome :=
  claim_C2_amended_abort cw2_env "u" [⟨1, "A", "qa"⟩, ⟨2, "B", "qb"⟩] rfl
    ⟨⟨1, "A", "qa"⟩, by decide, Or.inl ⟨"remote down", rfl⟩⟩
